import Mathlib

/-
Verification of the Custom KV transaction layer of 3FS
(src/fdb/CustomTransaction.h, src/fdb/CustomKvEngine.cc).

The C++ wrapper classes CustomReadOnlyTransaction and CustomTransaction
delegate the actual storage work to a Rust KV engine through a C FFI
(kvstore_client.h).  The wrapper code (guards, error mapping, buffer
construction, pagination flags) is embedded here directly from the C++
source.  The Rust engine itself is not part of the sources, so its
behaviour is modelled from the specification (MVCC log, optimistic
conflict detection, 10-byte versionstamps); every such definition says so
in its doc comment.
-/

namespace HF3FS

/-- Keys and values are arbitrary byte sequences (binary-safe); the C++
wrapper always passes pointer-and-length pairs, never NUL-terminated
strings, so a byte list is the faithful embedding. -/
abbrev Bytes := List Nat

/-- Status codes the wrapper can return, embedded from the codes actually
used in CustomTransaction.h: StatusCode::kInvalidArg, StatusCode::kIOError,
TransactionCode::kConflict, RPCCode::kTimeout. -/
inductive Status where
  | kInvalidArg
  | kIOError
  | kConflict
  | kTimeout
  deriving DecidableEq, Repr

/-- Modelled from the spec: retry classification of the abstract error
kinds (section 7 table): Conflict and Timeout are retriable, InvalidArgument
surfaces, IOError is not classified retriable. -/
def Status.retriable : Status → Bool
  | .kConflict => true
  | .kTimeout => true
  | .kInvalidArg => false
  | .kIOError => false

/-- Error codes crossing the FFI boundary, embedded from the switch in
CustomTransaction::commit (KV_ERROR_TRANSACTION_CONFLICT,
KV_ERROR_TRANSACTION_TIMEOUT, KV_ERROR_TRANSACTION_NOT_FOUND, default). -/
inductive KvErrorCode where
  | noError
  | transactionConflict
  | transactionTimeout
  | transactionNotFound
  | other
  deriving DecidableEq, Repr

/-- Result of an FFI call (KvResult in kvstore_client.h): a success flag
plus an error code. -/
structure KvResult where
  success : Bool
  error_code : KvErrorCode
  deriving DecidableEq, Repr

/-- The all-good FFI result. -/
def KvResult.ok : KvResult := ⟨true, .noError⟩

/-! ## Spec-modelled engine

The Rust KV engine behind the FFI is not in the sources; it is modelled
from the spec (section 4.1): an MVCC store where version n is the state
after the first n committed transactions, optimistic conflict detection
over declared read sets, and 10-byte versionstamps
commit_version(8 bytes big-endian) followed by intra_txn_seq(2 bytes). -/

/-- Modelled from the spec: one committed mutation; none models clear. -/
structure Mutation where
  key : Bytes
  value : Option Bytes
  deriving DecidableEq, Repr

/-- Modelled from the spec: the engine is a log of committed transactions;
the commit version of the n-th committed transaction is n (1-based), and
the state at version v is obtained by applying the first v entries. -/
structure Engine where
  log : List (List Mutation)
  deriving DecidableEq, Repr

/-- Remove a key from an association-list store. -/
def eraseKey (store : List (Bytes × Bytes)) (k : Bytes) : List (Bytes × Bytes) :=
  store.filter (fun p => !(p.1 == k))

/-- Apply one mutation to an association-list store. -/
def applyMutation (store : List (Bytes × Bytes)) (m : Mutation) : List (Bytes × Bytes) :=
  match m.value with
  | some v => (m.key, v) :: eraseKey store m.key
  | none => eraseKey store m.key

/-- Apply one committed transaction (a mutation list, in order). -/
def applyTxn (store : List (Bytes × Bytes)) (ms : List Mutation) : List (Bytes × Bytes) :=
  ms.foldl applyMutation store

/-- Modelled from the spec: the committed store as of version v. -/
def Engine.stateAt (e : Engine) (v : Nat) : List (Bytes × Bytes) :=
  (e.log.take v).foldl applyTxn []

/-- Modelled from the spec: the latest committed version of the engine. -/
def Engine.latestVersion (e : Engine) : Nat := e.log.length

/-- Modelled from the spec: read key k at snapshot version v. -/
def Engine.readAt (e : Engine) (v : Nat) (k : Bytes) : Option Bytes :=
  (e.stateAt v).lookup k

/-- Whether a committed transaction touches key k. -/
def txnTouches (ms : List Mutation) (k : Bytes) : Bool :=
  ms.any (fun m => m.key == k)

/-- Modelled from the spec: k was modified by some transaction that
committed after version v1 and at or before version v2. -/
def Engine.modifiedBetween (e : Engine) (v1 v2 : Nat) (k : Bytes) : Bool :=
  ((e.log.take v2).drop v1).any (fun ms => txnTouches ms k)

/-- Strict lexicographic byte-string order (spec: lexicographic key
ordering). -/
def bytesLt : Bytes → Bytes → Bool
  | _, [] => false
  | [], _ :: _ => true
  | a :: as, b :: bs => decide (a < b) || (a == b && bytesLt as bs)

/-- Big-endian byte encoding of n on w bytes. -/
def beBytes (w n : Nat) : Bytes :=
  (List.range w).map (fun i => n / 256 ^ (w - 1 - i) % 256)

/-- Modelled from the spec: the 10-byte versionstamp,
commit_version(8, big-endian) followed by intra_txn_seq(2). -/
def versionstamp (commitVersion seq : Nat) : Bytes :=
  beBytes 8 commitVersion ++ beBytes 2 seq

/-- Modelled from the spec and the comments in
CustomTransaction::setVersionstampedKey / setVersionstampedValue: pending
operations staged in an engine-side read-write transaction. vsKey carries
the key prefix (the engine appends the versionstamp after it); vsValue
carries the key and the value buffer whose final 10 bytes the engine
overwrites with the versionstamp at commit. -/
inductive PendingOp where
  | setKV (key value : Bytes)
  | del (key : Bytes)
  | vsKey (pfx value : Bytes)
  | vsValue (key buffer : Bytes)
  deriving DecidableEq, Repr

/-- Modelled from the spec: commit-time resolution of a pending operation
into a mutation, given the commit version and the intra-transaction
sequence number of the operation. -/
def resolveOp (cv seq : Nat) (op : PendingOp) : Mutation :=
  match op with
  | .setKV k v => ⟨k, some v⟩
  | .del k => ⟨k, none⟩
  | .vsKey p v => ⟨p ++ versionstamp cv seq, some v⟩
  | .vsValue k buf => ⟨k, some (buf.take (buf.length - 10) ++ versionstamp cv seq)⟩

/-- Modelled from the spec: engine-side state of a read-write transaction:
the read version assigned at begin, the declared read-conflict keys and
ranges, and the staged operations. -/
structure EngineTxn where
  readVersion : Nat
  readConflictKeys : List Bytes
  readConflictRanges : List (Bytes × Bytes)
  ops : List PendingOp
  deriving DecidableEq, Repr

/-- Modelled from the spec: a fresh engine transaction begun against
engine e; the read version is the latest committed version at begin. -/
def EngineTxn.begin (e : Engine) : EngineTxn :=
  ⟨e.latestVersion, [], [], []⟩

/-- Key k falls in the half-open range [lo, hi). -/
def inRange (k : Bytes) (r : Bytes × Bytes) : Bool :=
  !bytesLt k r.1 && bytesLt k r.2

/-- Modelled from the spec (optimistic concurrency): the transaction
conflicts at commit iff some declared read-conflict key or range was
modified between its read version and the current latest version. -/
def Engine.conflicts (e : Engine) (t : EngineTxn) : Bool :=
  t.readConflictKeys.any (fun k => e.modifiedBetween t.readVersion e.latestVersion k) ||
  t.readConflictRanges.any (fun r =>
    ((e.log.take e.latestVersion).drop t.readVersion).any
      (fun ms => ms.any (fun m => inRange m.key r)))

/-- Modelled from the spec: engine-side commit.  On conflict the engine is
unchanged and the FFI reports KV_ERROR_TRANSACTION_CONFLICT; otherwise the
resolved mutations are appended as one committed transaction whose commit
version is the new log length.  Returns (ffi result, engine, commit
version). -/
def Engine.commitTxn (e : Engine) (t : EngineTxn) : KvResult × Engine × Nat :=
  if e.conflicts t then
    (⟨false, .transactionConflict⟩, e, 0)
  else
    let cv := e.latestVersion + 1
    let muts := t.ops.enum.map (fun p => resolveOp cv p.1 p.2)
    (KvResult.ok, ⟨e.log ++ [muts]⟩, cv)

/-- Latest value of key k among the staged set/del operations, if any:
some (some v) staged set, some none staged clear, none untouched. -/
def pendingLookup (ops : List PendingOp) (k : Bytes) : Option (Option Bytes) :=
  ops.foldl
    (fun acc op =>
      match op with
      | .setKV k2 v => if k2 == k then some (some v) else acc
      | .del k2 => if k2 == k then some none else acc
      | _ => acc)
    none

/-- Modelled from the spec: a get inside a read-write engine transaction
sees the staged writes of the transaction itself, else the snapshot at its
read version. -/
def Engine.txnRead (e : Engine) (t : EngineTxn) (k : Bytes) : Option Bytes :=
  match pendingLookup t.ops k with
  | some r => r
  | none => e.readAt t.readVersion k

/-- Modelled from the spec: get records a read-conflict point on the key
in the engine-side transaction. -/
def EngineTxn.recordRead (t : EngineTxn) (k : Bytes) : EngineTxn :=
  { t with readConflictKeys := t.readConflictKeys ++ [k] }

/-- Modelled from the spec: get_range records a read-conflict range on the
selected interval in the engine-side transaction. -/
def EngineTxn.recordReadRange (t : EngineTxn) (lo hi : Bytes) : EngineTxn :=
  { t with readConflictRanges := t.readConflictRanges ++ [(lo, hi)] }

/-- Modelled from the spec: the snapshot version a read transaction begun
via kv_read_transaction_begin(client, v) observes: set_read_version(v)
bounds the snapshot, and the wrapper passes read_version_.value_or(0), 0
meaning unset, in which case the engine assigns the latest version. -/
def Engine.beginReadVersion (e : Engine) (v : Int) : Nat :=
  if v = 0 then e.latestVersion else v.toNat

/-- KeySelector from ITransaction.h: a key and an inclusive flag. -/
structure KeySelector where
  key : Bytes
  inclusive : Bool
  deriving DecidableEq, Repr

/-- GetRangeResult from ITransaction.h: the returned page and the hasMore
flag. -/
structure GetRangeResult where
  kvs : List (Bytes × Bytes)
  hasMore : Bool
  deriving DecidableEq, Repr

/-- Insert a pair into a key-sorted association list. -/
def insertSorted (p : Bytes × Bytes) : List (Bytes × Bytes) → List (Bytes × Bytes)
  | [] => [p]
  | q :: qs => if bytesLt p.1 q.1 then p :: q :: qs else q :: insertSorted p qs

/-- Sort an association list by key, lexicographically. -/
def sortByKey (l : List (Bytes × Bytes)) : List (Bytes × Bytes) :=
  l.foldr insertSorted []

/-- k satisfies the begin selector (at or after the key when inclusive,
strictly after otherwise). -/
def selLo (s : KeySelector) (k : Bytes) : Bool :=
  if s.inclusive then !bytesLt k s.key else bytesLt s.key k

/-- k satisfies the end selector (at or before the key when inclusive,
strictly before otherwise). -/
def selHi (s : KeySelector) (k : Bytes) : Bool :=
  if s.inclusive then !bytesLt s.key k else bytesLt k s.key

/-- All pairs of the store matching the selectors, in key order. -/
def rangeContent (store : List (Bytes × Bytes)) (loSel hiSel : KeySelector) :
    List (Bytes × Bytes) :=
  (sortByKey store).filter (fun p => selLo loSel p.1 && selHi hiSel p.1)

/-- Modelled from the spec: the engine range read at snapshot version v
returns the ordered matching pairs, at most limit of them. -/
def Engine.rangeAt (e : Engine) (v : Nat) (loSel hiSel : KeySelector) (limit : Nat) :
    List (Bytes × Bytes) :=
  (rangeContent (e.stateAt v) loSel hiSel).take limit

/-! ## The C++ wrapper, embedded from CustomTransaction.h

Each coroutine is embedded as a pure function; the atomic flags become
record fields, FFI calls become calls into the spec-modelled engine (or,
where a claim is about how the wrapper treats an arbitrary FFI outcome,
the raw KvResult is a parameter).  The int64_t fields committed_version_
and the read version are Int. -/

/-- State of a CustomReadOnlyTransaction: cancelled_, reset_,
read_version_, and whether client_handle_ is non-null. -/
structure ROState where
  cancelled : Bool
  reset : Bool
  read_version : Option Int
  hasClientHandle : Bool
  deriving DecidableEq, Repr

/-- A freshly created read-only transaction with a live client handle. -/
def ROState.fresh : ROState := ⟨false, false, none, true⟩

/-- State of a CustomTransaction: cancelled_, reset_, committed_,
committed_version_ (initially -1), read_version_, whether client_handle_
is non-null, and the engine-side transaction behind transaction_handle_
(none while the handle is null). -/
structure RWState where
  cancelled : Bool
  reset : Bool
  committed : Bool
  committed_version : Int
  read_version : Option Int
  hasClientHandle : Bool
  txnHandle : Option EngineTxn
  deriving DecidableEq, Repr

/-- A freshly created read-write transaction with a live client handle. -/
def RWState.fresh : RWState := ⟨false, false, false, -1, none, true, none⟩

/-- The finished-transaction guard of every CustomTransaction operation:
cancelled_.load() || reset_.load() || committed_.load(). -/
def RWState.finished (st : RWState) : Bool :=
  st.cancelled || st.reset || st.committed

/-- CustomTransaction::ensureTransaction: reuse the existing handle, fail
with kIOError when the client handle is missing, else begin a new engine
transaction. -/
def ensureTransaction (st : RWState) (e : Engine) : Except Status RWState :=
  if st.txnHandle.isSome then .ok st
  else if !st.hasClientHandle then .error .kIOError
  else .ok { st with txnHandle := some (EngineTxn.begin e) }

/-- The value-result branch shared by the get paths: the wrapper returns
the bytes only when result.success and value.data are both set, and
std::nullopt otherwise (also on error results). -/
def valueResultToOptional (r : KvResult) (data : Option Bytes) : Option Bytes :=
  if r.success && data.isSome then data else none

/-- CustomReadOnlyTransaction::snapshotGet given the raw outcome of the
FFI read (kv_future_get_value_result): guard, client-handle check, then
the success-and-data branch. -/
def ROState.snapshotGetFromResult (st : ROState) (r : KvResult) (data : Option Bytes) :
    Except Status (Option Bytes) :=
  if st.cancelled || st.reset then .error .kInvalidArg
  else if !st.hasClientHandle then .error .kIOError
  else .ok (valueResultToOptional r data)

/-- CustomReadOnlyTransaction::snapshotGet composed with the spec-modelled
engine: a fresh read transaction is begun at read_version_.value_or(0) for
this one call, and the key is read at that snapshot. -/
def ROState.snapshotGet (st : ROState) (e : Engine) (k : Bytes) :
    Except Status (Option Bytes) :=
  st.snapshotGetFromResult KvResult.ok
    (e.readAt (e.beginReadVersion (st.read_version.getD 0)) k)

/-- CustomReadOnlyTransaction::get: after the guard the body is a TODO
placeholder that returns std::nullopt. -/
def ROState.get (st : ROState) (_k : Bytes) : Except Status (Option Bytes) :=
  if st.cancelled || st.reset then .error .kInvalidArg
  else .ok none

/-- CustomReadOnlyTransaction::snapshotGetRange: guard, client-handle
check, fresh read transaction at read_version_.value_or(0), engine range
read, and has_more := pair_array.count == limit. -/
def ROState.snapshotGetRange (st : ROState) (e : Engine)
    (loSel hiSel : KeySelector) (limit : Nat) : Except Status GetRangeResult :=
  if st.cancelled || st.reset then .error .kInvalidArg
  else if !st.hasClientHandle then .error .kIOError
  else
    let pairs := e.rangeAt (e.beginReadVersion (st.read_version.getD 0)) loSel hiSel limit
    .ok ⟨pairs, pairs.length == limit⟩

/-- CustomReadOnlyTransaction::getRange: after the guard the body is a
TODO placeholder returning an empty page with has_more = false. -/
def ROState.getRange (st : ROState) (_loSel _hiSel : KeySelector) (_limit : Nat) :
    Except Status GetRangeResult :=
  if st.cancelled || st.reset then .error .kInvalidArg
  else .ok ⟨[], false⟩

/-- CustomReadOnlyTransaction::cancel: compare-exchange cancelled_ from
false to true; always succeeds. -/
def ROState.cancel (st : ROState) : ROState × Except Status Unit :=
  ({ st with cancelled := true }, .ok ())

/-- CustomReadOnlyTransaction::reset: reset_ := true, cancelled_ := false,
read_version_ cleared. -/
def ROState.resetTxn (st : ROState) : ROState :=
  { st with reset := true, cancelled := false, read_version := none }

/-- CustomTransaction::snapshotGet given the raw FFI read outcome: the
finished guard, the client-handle check, then the success-and-data
branch (local uncommitted writes are bypassed). -/
def RWState.snapshotGetFromResult (st : RWState) (r : KvResult) (data : Option Bytes) :
    Except Status (Option Bytes) :=
  if st.finished then .error .kInvalidArg
  else if !st.hasClientHandle then .error .kIOError
  else .ok (valueResultToOptional r data)

/-- CustomTransaction::snapshotGet composed with the spec-modelled engine:
a fresh read transaction at read_version_.value_or(0), reading the
committed snapshot (never the staged writes of this transaction). -/
def RWState.snapshotGet (st : RWState) (e : Engine) (k : Bytes) :
    Except Status (Option Bytes) :=
  st.snapshotGetFromResult KvResult.ok
    (e.readAt (e.beginReadVersion (st.read_version.getD 0)) k)

/-- CustomTransaction::get given the raw FFI read outcome: finished
guard, ensureTransaction, then the success-and-data branch.  Returns the
state as well since ensureTransaction may begin the engine transaction. -/
def RWState.getFromResult (st : RWState) (e : Engine) (r : KvResult) (data : Option Bytes) :
    RWState × Except Status (Option Bytes) :=
  if st.finished then (st, .error .kInvalidArg)
  else
    match ensureTransaction st e with
    | .error s => (st, .error s)
    | .ok st1 => (st1, .ok (valueResultToOptional r data))

/-- CustomTransaction::get composed with the spec-modelled engine: the
read goes through kv_transaction_get on the engine transaction, which sees
staged writes and the snapshot at the transaction read version. -/
def RWState.get (st : RWState) (e : Engine) (k : Bytes) :
    RWState × Except Status (Option Bytes) :=
  if st.finished then (st, .error .kInvalidArg)
  else
    match ensureTransaction st e with
    | .error s => (st, .error s)
    | .ok st1 =>
      let t := st1.txnHandle.getD (EngineTxn.begin e)
      ({ st1 with txnHandle := some (t.recordRead k) },
       .ok (valueResultToOptional KvResult.ok (e.txnRead t k)))

/-- CustomTransaction::getRange: finished guard, ensureTransaction, engine
range read on the transaction snapshot, and has_more := pair_array.count
!= 0 && pair_array.count == limit. -/
def RWState.getRange (st : RWState) (e : Engine)
    (loSel hiSel : KeySelector) (limit : Nat) : RWState × Except Status GetRangeResult :=
  if st.finished then (st, .error .kInvalidArg)
  else
    match ensureTransaction st e with
    | .error s => (st, .error s)
    | .ok st1 =>
      let t := st1.txnHandle.getD (EngineTxn.begin e)
      let pairs := e.rangeAt t.readVersion loSel hiSel limit
      ({ st1 with txnHandle := some (t.recordReadRange loSel.key hiSel.key) },
       .ok ⟨pairs, !(pairs.length == 0) && pairs.length == limit⟩)

/-- CustomTransaction::snapshotGetRange just delegates to getRange. -/
def RWState.snapshotGetRange (st : RWState) (e : Engine)
    (loSel hiSel : KeySelector) (limit : Nat) : RWState × Except Status GetRangeResult :=
  st.getRange e loSel hiSel limit

/-- CustomTransaction::set: finished guard, ensureTransaction, then
kv_transaction_set stages the write in the engine transaction. -/
def RWState.set (st : RWState) (e : Engine) (k v : Bytes) : RWState × Except Status Unit :=
  if st.finished then (st, .error .kInvalidArg)
  else
    match ensureTransaction st e with
    | .error s => (st, .error s)
    | .ok st1 =>
      let t := st1.txnHandle.getD (EngineTxn.begin e)
      ({ st1 with txnHandle := some { t with ops := t.ops ++ [.setKV k v] } }, .ok ())

/-- CustomTransaction::clear: finished guard, ensureTransaction, then
kv_transaction_delete stages the clear. -/
def RWState.clear (st : RWState) (e : Engine) (k : Bytes) : RWState × Except Status Unit :=
  if st.finished then (st, .error .kInvalidArg)
  else
    match ensureTransaction st e with
    | .error s => (st, .error s)
    | .ok st1 =>
      let t := st1.txnHandle.getD (EngineTxn.begin e)
      ({ st1 with txnHandle := some { t with ops := t.ops ++ [.del k] } }, .ok ())

/-- CustomTransaction::setVersionstampedKey: finished guard,
ensureTransaction, reject an empty key prefix, then stage the operation.
The offset parameter is ignored by the implementation (the engine places
the versionstamp after the prefix), exactly as the source comments say. -/
def RWState.setVersionstampedKey (st : RWState) (e : Engine)
    (k : Bytes) (_offset : Nat) (v : Bytes) : RWState × Except Status Unit :=
  if st.finished then (st, .error .kInvalidArg)
  else
    match ensureTransaction st e with
    | .error s => (st, .error s)
    | .ok st1 =>
      if k == [] then (st1, .error .kInvalidArg)
      else
        let t := st1.txnHandle.getD (EngineTxn.begin e)
        ({ st1 with txnHandle := some { t with ops := t.ops ++ [.vsKey k v] } }, .ok ())

/-- CustomTransaction::setVersionstampedValue: finished guard,
ensureTransaction, reject an empty key, build value_buffer = value
followed by 10 NUL bytes (the engine overwrites the last 10 bytes with the
versionstamp), then stage the operation.  The offset parameter is ignored
by the implementation. -/
def RWState.setVersionstampedValue (st : RWState) (e : Engine)
    (k v : Bytes) (_offset : Nat) : RWState × Except Status Unit :=
  if st.finished then (st, .error .kInvalidArg)
  else
    match ensureTransaction st e with
    | .error s => (st, .error s)
    | .ok st1 =>
      if k == [] then (st1, .error .kInvalidArg)
      else
        let buffer := v ++ List.replicate 10 0
        let t := st1.txnHandle.getD (EngineTxn.begin e)
        ({ st1 with txnHandle := some { t with ops := t.ops ++ [.vsValue k buffer] } }, .ok ())

/-- CustomTransaction::addReadConflict: after the finished guard the body
is a TODO placeholder; nothing is communicated to the engine and the call
returns success. -/
def RWState.addReadConflict (st : RWState) (_k : Bytes) : RWState × Except Status Unit :=
  if st.finished then (st, .error .kInvalidArg)
  else (st, .ok ())

/-- CustomTransaction::addReadConflictRange: after the finished guard the
body is a TODO placeholder; nothing is communicated to the engine and the
call returns success. -/
def RWState.addReadConflictRange (st : RWState) (_lo _hi : Bytes) :
    RWState × Except Status Unit :=
  if st.finished then (st, .error .kInvalidArg)
  else (st, .ok ())

/-- The error-code switch of CustomTransaction::commit, mapping FFI error
codes to status codes. -/
def mapCommitError : KvErrorCode → Status
  | .transactionConflict => .kConflict
  | .transactionTimeout => .kTimeout
  | .transactionNotFound => .kInvalidArg
  | _ => .kIOError

/-- CustomTransaction::commit: reject when cancelled or reset; the
compare-exchange on committed_ makes a second commit return success
immediately; otherwise ensureTransaction, engine commit, error-code
mapping on failure, and on success committed_version_ is stored from the
steady clock (the now parameter), not from the engine.  Returns the new
wrapper state, the engine, and the outcome. -/
def RWState.commit (st : RWState) (e : Engine) (now : Int) :
    RWState × Engine × Except Status Unit :=
  if st.cancelled || st.reset then (st, e, .error .kInvalidArg)
  else if st.committed then (st, e, .ok ())
  else
    let st1 := { st with committed := true }
    match ensureTransaction st1 e with
    | .error s => (st1, e, .error s)
    | .ok st2 =>
      let t := st2.txnHandle.getD (EngineTxn.begin e)
      let rec2 := e.commitTxn t
      if rec2.1.success then
        ({ st2 with committed_version := now }, rec2.2.1, .ok ())
      else
        (st2, rec2.2.1, .error (mapCommitError rec2.1.error_code))

/-- CustomTransaction::getCommittedVersion: returns committed_version_. -/
def RWState.getCommittedVersion (st : RWState) : Int :=
  st.committed_version

/-- CustomTransaction::cancel: compare-exchange cancelled_ from false to
true; on the first call the engine transaction is aborted and the handle
dropped; always returns success. -/
def RWState.cancel (st : RWState) : RWState × Except Status Unit :=
  if st.cancelled then (st, .ok ())
  else ({ st with cancelled := true, txnHandle := none }, .ok ())

/-- CustomTransaction::reset: reset_ := true, cancelled_ := false,
committed_ := false, committed_version_ := -1, read_version_ cleared. -/
def RWState.resetTxn (st : RWState) : RWState :=
  { st with reset := true, cancelled := false, committed := false,
            committed_version := -1, read_version := none }

/-! ## Helper lemmas -/

theorem Engine.stateAt_length (e : Engine) :
    e.stateAt e.log.length = e.log.foldl applyTxn [] := by
  unfold Engine.stateAt
  rw [List.take_length]

theorem Engine.stateAt_append_one (e : Engine) (ms : List Mutation) :
    (Engine.mk (e.log ++ [ms])).stateAt (e.log.length + 1)
      = applyTxn (e.stateAt e.log.length) ms := by
  unfold Engine.stateAt
  rw [List.take_of_length_le (by simp), List.foldl_append]
  simp [Engine.stateAt, List.take_length]

theorem lookup_applyTxn_set (store : List (Bytes × Bytes)) (k v : Bytes) :
    (applyTxn store [⟨k, some v⟩]).lookup k = some v := by
  simp [applyTxn, applyMutation]

theorem Engine.stateAt_append_of_le (e : Engine) (ext : List (List Mutation))
    (v : Nat) (h : v ≤ e.log.length) :
    (Engine.mk (e.log ++ ext)).stateAt v = e.stateAt v := by
  unfold Engine.stateAt
  rw [List.take_append_of_le_length h]

/-! ## Claims -/

/-- C10: commit() is idempotent on a read-write transaction: once an
earlier call has marked the transaction committed, a further commit()
returns success immediately, does not re-submit anything to the engine,
and leaves both the wrapper state and the store unchanged. -/
theorem commit_idempotent (st : RWState) (e : Engine) (now : Int)
    (hc : st.committed = true) (hnc : st.cancelled = false) (hnr : st.reset = false) :
    st.commit e now = (st, e, Except.ok ()) := by
  simp [RWState.commit, hc, hnc, hnr]

theorem commit_idempotent_witness :
    ({ RWState.fresh with committed := true } : RWState).commit (Engine.mk []) 5
      = ({ RWState.fresh with committed := true }, Engine.mk [], Except.ok ()) :=
  commit_idempotent _ _ _ rfl rfl rfl

/-- C9: every operation invoked on a finished transaction handle (after
cancel or reset, and for the read-write transaction also after commit)
returns the kInvalidArg error and leaves the wrapper state unchanged; no
call reaches the engine, so the KV store is not mutated (the engine value
threaded through commit is the only way the store ever changes, and none
of these operations touches it). -/
theorem finished_guard_blocks_all_operations
    (st : RWState) (ro : ROState) (e : Engine) (k v lo hi : Bytes)
    (loSel hiSel : KeySelector) (limit off : Nat)
    (hrw : st.finished = true) (hro : (ro.cancelled || ro.reset) = true) :
    st.get e k = (st, Except.error Status.kInvalidArg)
    ∧ st.snapshotGet e k = Except.error Status.kInvalidArg
    ∧ st.getRange e loSel hiSel limit = (st, Except.error Status.kInvalidArg)
    ∧ st.snapshotGetRange e loSel hiSel limit = (st, Except.error Status.kInvalidArg)
    ∧ st.set e k v = (st, Except.error Status.kInvalidArg)
    ∧ st.clear e k = (st, Except.error Status.kInvalidArg)
    ∧ st.setVersionstampedKey e k off v = (st, Except.error Status.kInvalidArg)
    ∧ st.setVersionstampedValue e k v off = (st, Except.error Status.kInvalidArg)
    ∧ st.addReadConflict k = (st, Except.error Status.kInvalidArg)
    ∧ st.addReadConflictRange lo hi = (st, Except.error Status.kInvalidArg)
    ∧ ro.snapshotGet e k = Except.error Status.kInvalidArg
    ∧ ro.get k = Except.error Status.kInvalidArg
    ∧ ro.snapshotGetRange e loSel hiSel limit = Except.error Status.kInvalidArg
    ∧ ro.getRange loSel hiSel limit = Except.error Status.kInvalidArg := by
  refine ⟨?_, ?_, ?_, ?_, ?_, ?_, ?_, ?_, ?_, ?_, ?_, ?_, ?_, ?_⟩
  · simp [RWState.get, hrw]
  · simp [RWState.snapshotGet, RWState.snapshotGetFromResult, hrw]
  · simp [RWState.getRange, hrw]
  · simp [RWState.snapshotGetRange, RWState.getRange, hrw]
  · simp [RWState.set, hrw]
  · simp [RWState.clear, hrw]
  · simp [RWState.setVersionstampedKey, hrw]
  · simp [RWState.setVersionstampedValue, hrw]
  · simp [RWState.addReadConflict, hrw]
  · simp [RWState.addReadConflictRange, hrw]
  · simp [ROState.snapshotGet, ROState.snapshotGetFromResult, hro]
  · simp [ROState.get, hro]
  · simp [ROState.snapshotGetRange, hro]
  · simp [ROState.getRange, hro]

theorem finished_guard_blocks_all_operations_witness :
    ({ RWState.fresh with cancelled := true } : RWState).get (Engine.mk []) [1]
        = ({ RWState.fresh with cancelled := true }, Except.error Status.kInvalidArg)
    ∧ ({ RWState.fresh with cancelled := true } : RWState).snapshotGet (Engine.mk []) [1]
        = Except.error Status.kInvalidArg
    ∧ ({ RWState.fresh with cancelled := true } : RWState).getRange (Engine.mk [])
          ⟨[], true⟩ ⟨[9], false⟩ 4
        = ({ RWState.fresh with cancelled := true }, Except.error Status.kInvalidArg)
    ∧ ({ RWState.fresh with cancelled := true } : RWState).snapshotGetRange (Engine.mk [])
          ⟨[], true⟩ ⟨[9], false⟩ 4
        = ({ RWState.fresh with cancelled := true }, Except.error Status.kInvalidArg)
    ∧ ({ RWState.fresh with cancelled := true } : RWState).set (Engine.mk []) [1] [2]
        = ({ RWState.fresh with cancelled := true }, Except.error Status.kInvalidArg)
    ∧ ({ RWState.fresh with cancelled := true } : RWState).clear (Engine.mk []) [1]
        = ({ RWState.fresh with cancelled := true }, Except.error Status.kInvalidArg)
    ∧ ({ RWState.fresh with cancelled := true } : RWState).setVersionstampedKey (Engine.mk [])
          [1] 0 [2]
        = ({ RWState.fresh with cancelled := true }, Except.error Status.kInvalidArg)
    ∧ ({ RWState.fresh with cancelled := true } : RWState).setVersionstampedValue (Engine.mk [])
          [1] [2] 0
        = ({ RWState.fresh with cancelled := true }, Except.error Status.kInvalidArg)
    ∧ ({ RWState.fresh with cancelled := true } : RWState).addReadConflict [1]
        = ({ RWState.fresh with cancelled := true }, Except.error Status.kInvalidArg)
    ∧ ({ RWState.fresh with cancelled := true } : RWState).addReadConflictRange [1] [2]
        = ({ RWState.fresh with cancelled := true }, Except.error Status.kInvalidArg)
    ∧ (ROState.fresh.resetTxn).snapshotGet (Engine.mk []) [1] = Except.error Status.kInvalidArg
    ∧ (ROState.fresh.resetTxn).get [1] = Except.error Status.kInvalidArg
    ∧ (ROState.fresh.resetTxn).snapshotGetRange (Engine.mk []) ⟨[], true⟩ ⟨[9], false⟩ 4
        = Except.error Status.kInvalidArg
    ∧ (ROState.fresh.resetTxn).getRange ⟨[], true⟩ ⟨[9], false⟩ 4
        = Except.error Status.kInvalidArg :=
  finished_guard_blocks_all_operations
    { RWState.fresh with cancelled := true } (ROState.fresh.resetTxn)
    (Engine.mk []) [1] [2] [1] [2] ⟨[], true⟩ ⟨[9], false⟩ 4 0 rfl rfl

/-- C5: commit() fails with the Conflict kind exactly when the engine
reports a transaction conflict (KV_ERROR_TRANSACTION_CONFLICT); on such a
conflict the engine rejects the transaction without applying it, so the
store is unchanged, and the Conflict kind is retriable. -/
theorem commit_conflict_iff (st : RWState) (e : Engine) (now : Int)
    (hnc : st.cancelled = false) (hnr : st.reset = false) (hm : st.committed = false)
    (hh : st.hasClientHandle = true) :
    (((st.commit e now).2.2 = Except.error Status.kConflict)
      ↔ e.conflicts (st.txnHandle.getD (EngineTxn.begin e)) = true)
    ∧ (e.conflicts (st.txnHandle.getD (EngineTxn.begin e)) = true
        → (st.commit e now).2.1 = e)
    ∧ Status.retriable Status.kConflict = true := by
  cases hth : st.txnHandle with
  | none =>
    by_cases hcf : e.conflicts (EngineTxn.begin e)
    · simp [RWState.commit, hnc, hnr, hm, ensureTransaction, hth, hh,
            Engine.commitTxn, hcf, mapCommitError, KvResult.ok, Status.retriable]
    · simp [RWState.commit, hnc, hnr, hm, ensureTransaction, hth, hh,
            Engine.commitTxn, hcf, mapCommitError, KvResult.ok, Status.retriable]
  | some t =>
    by_cases hcf : e.conflicts t
    · simp [RWState.commit, hnc, hnr, hm, ensureTransaction, hth, hh,
            Engine.commitTxn, hcf, mapCommitError, KvResult.ok, Status.retriable]
    · simp [RWState.commit, hnc, hnr, hm, ensureTransaction, hth, hh,
            Engine.commitTxn, hcf, mapCommitError, KvResult.ok, Status.retriable]

theorem commit_conflict_iff_witness :
    (((RWState.fresh.commit (Engine.mk []) 0).2.2 = Except.error Status.kConflict)
      ↔ (Engine.mk []).conflicts
          (RWState.fresh.txnHandle.getD (EngineTxn.begin (Engine.mk []))) = true)
    ∧ ((Engine.mk []).conflicts
          (RWState.fresh.txnHandle.getD (EngineTxn.begin (Engine.mk []))) = true
        → (RWState.fresh.commit (Engine.mk []) 0).2.1 = Engine.mk [])
    ∧ Status.retriable Status.kConflict = true :=
  commit_conflict_iff RWState.fresh (Engine.mk []) 0 rfl rfl rfl rfl

/-- C8, counterexample: a failed engine read (result.success = false, no
data) makes CustomTransaction::get return a successful none instead of a
structured error, even though the key is present in the store; the claim
that a read failure is never reported as a successful none is false. -/
theorem read_failure_returns_ok_none_counterexample :
    ((RWState.fresh.getFromResult (Engine.mk [[⟨[1], some [2]⟩]])
        ⟨false, KvErrorCode.other⟩ none).2 = Except.ok none)
    ∧ (⟨false, KvErrorCode.other⟩ : KvResult).success = false
    ∧ (Engine.mk [[⟨[1], some [2]⟩]]).readAt 1 [1] = some [2] :=
  ⟨rfl, rfl, by decide⟩

/-- C8, amended: get and snapshotGet collapse every non-successful or
data-less FFI read outcome to a successful none; a structured error is
produced only by the finished/cancelled guard and by missing client or
transaction handles, never by the read outcome itself. -/
theorem read_result_collapsed_to_none (st : RWState) (ro : ROState) (e : Engine)
    (r : KvResult) (data : Option Bytes)
    (h : st.finished = false) (hh : st.hasClientHandle = true)
    (hro : (ro.cancelled || ro.reset) = false) (hroh : ro.hasClientHandle = true) :
    ((st.getFromResult e r data).2
      = Except.ok (if r.success && data.isSome then data else none))
    ∧ (ro.snapshotGetFromResult r data
      = Except.ok (if r.success && data.isSome then data else none))
    ∧ (st.snapshotGetFromResult r data
      = Except.ok (if r.success && data.isSome then data else none)) := by
  refine ⟨?_, ?_, ?_⟩
  · unfold RWState.getFromResult ensureTransaction
    cases hth : st.txnHandle <;> simp [h, hh, hth, valueResultToOptional]
  · simp [ROState.snapshotGetFromResult, hro, hroh, valueResultToOptional]
  · simp [RWState.snapshotGetFromResult, h, hh, valueResultToOptional]

/-- C6: keys and values are binary-safe: for every byte-string key and
value (the empty string and strings with embedded NUL bytes included),
committing set(k, v) through a fresh read-write transaction and then
reading k with get in a later fresh transaction, or with snapshotGet in a
later read-only transaction, returns exactly v. -/
theorem binary_safe_roundtrip (k v : Bytes) (e : Engine) (now : Int) :
    ((RWState.fresh.set e k v).1.commit e now).2.2 = Except.ok ()
    ∧ (RWState.fresh.get (((RWState.fresh.set e k v).1.commit e now).2.1) k).2
        = Except.ok (some v)
    ∧ ROState.fresh.snapshotGet (((RWState.fresh.set e k v).1.commit e now).2.1) k
        = Except.ok (some v) := by
  have hset : (RWState.fresh.set e k v).1
      = { RWState.fresh with txnHandle := some ⟨e.latestVersion, [], [], [.setKV k v]⟩ } := by
    simp [RWState.fresh, RWState.set, RWState.finished, ensureTransaction, EngineTxn.begin]
  have hcommit : ((RWState.fresh.set e k v).1.commit e now).2
      = (Engine.mk (e.log ++ [[⟨k, some v⟩]]), Except.ok ()) := by
    rw [hset]
    simp [RWState.commit, RWState.fresh, ensureTransaction, Engine.commitTxn,
          Engine.conflicts, Engine.modifiedBetween, KvResult.ok, List.enum,
          List.enumFrom, resolveOp]
  have h1 : ((RWState.fresh.set e k v).1.commit e now).2.2 = Except.ok () := by
    rw [hcommit]
  have he2 : ((RWState.fresh.set e k v).1.commit e now).2.1
      = Engine.mk (e.log ++ [[⟨k, some v⟩]]) := by rw [hcommit]
  have hlook : (Engine.mk (e.log ++ [[⟨k, some v⟩]])).readAt (e.log.length + 1) k = some v := by
    unfold Engine.readAt
    rw [Engine.stateAt_append_one e [⟨k, some v⟩], lookup_applyTxn_set]
  refine ⟨h1, ?_, ?_⟩
  · rw [he2]
    simp [RWState.get, RWState.fresh, RWState.finished, ensureTransaction, EngineTxn.begin,
          Engine.txnRead, pendingLookup, Engine.latestVersion,
          valueResultToOptional, KvResult.ok, hlook]
  · rw [he2]
    simp [ROState.snapshotGet, ROState.snapshotGetFromResult, ROState.fresh,
          Engine.beginReadVersion, Engine.latestVersion,
          valueResultToOptional, KvResult.ok, hlook]

/-- C3, counterexample: setVersionstampedValue with designated offset 3 on
the five-byte value prefix 65 66 67 68 69 commits the value
prefix ++ versionstamp, so the ten bytes starting at the designated
offset 3 are not the versionstamp: the offset argument does not determine
the placement. -/
theorem versionstamp_offset_ignored_counterexample :
    ((((RWState.fresh.setVersionstampedValue (Engine.mk []) [10] [65, 66, 67, 68, 69] 3).1.commit
        (Engine.mk []) 0).2.1).readAt 1 [10]
      = some ([65, 66, 67, 68, 69] ++ versionstamp 1 0))
    ∧ ((([65, 66, 67, 68, 69] ++ versionstamp 1 0).drop 3).take 10 ≠ versionstamp 1 0) :=
  ⟨by decide, by decide⟩

/-- C3, amended: the offset argument of setVersionstampedKey and
setVersionstampedValue is ignored; for any nonempty key, committing a
fresh transaction holding one versionstamped operation stores, for
setVersionstampedValue, the value prefix followed by the 10-byte
versionstamp of the commit, and for setVersionstampedKey, the value under
the key prefix followed by the 10-byte versionstamp. -/
theorem versionstamp_appended_at_end (e : Engine) (k pfx vval : Bytes)
    (off1 off2 : Nat) (now : Int) (hk : k ≠ []) :
    (((RWState.fresh.setVersionstampedValue e k pfx off1).1.commit e now).2.2 = Except.ok ()
      ∧ (((RWState.fresh.setVersionstampedValue e k pfx off1).1.commit e now).2.1).readAt
          (e.latestVersion + 1) k
        = some (pfx ++ versionstamp (e.latestVersion + 1) 0))
    ∧ (((RWState.fresh.setVersionstampedKey e k off2 vval).1.commit e now).2.2 = Except.ok ()
      ∧ (((RWState.fresh.setVersionstampedKey e k off2 vval).1.commit e now).2.1).readAt
          (e.latestVersion + 1) (k ++ versionstamp (e.latestVersion + 1) 0)
        = some vval)
    ∧ (versionstamp (e.latestVersion + 1) 0).length = 10 := by
  have hkb : (k == []) = false := by simp [hk]
  have hbuf : (pfx ++ List.replicate 10 (0 : Nat)).take
      ((pfx ++ List.replicate 10 (0 : Nat)).length - 10) = pfx := by
    simp
  have hsetv : (RWState.fresh.setVersionstampedValue e k pfx off1).1
      = { RWState.fresh with
          txnHandle := some ⟨e.latestVersion, [], [], [.vsValue k (pfx ++ List.replicate 10 0)]⟩ } := by
    simp [RWState.fresh, RWState.setVersionstampedValue, RWState.finished,
          ensureTransaction, EngineTxn.begin, hkb]
  have hsetk : (RWState.fresh.setVersionstampedKey e k off2 vval).1
      = { RWState.fresh with
          txnHandle := some ⟨e.latestVersion, [], [], [.vsKey k vval]⟩ } := by
    simp [RWState.fresh, RWState.setVersionstampedKey, RWState.finished,
          ensureTransaction, EngineTxn.begin, hkb]
  have hcv : ((RWState.fresh.setVersionstampedValue e k pfx off1).1.commit e now).2
      = (Engine.mk (e.log ++ [[⟨k, some (pfx ++ versionstamp (e.log.length + 1) 0)⟩]]),
         Except.ok ()) := by
    rw [hsetv]
    simp [RWState.commit, RWState.fresh, ensureTransaction, Engine.commitTxn,
          Engine.conflicts, Engine.modifiedBetween, KvResult.ok, List.enum,
          List.enumFrom, resolveOp, Engine.latestVersion, hbuf]
  have hck : ((RWState.fresh.setVersionstampedKey e k off2 vval).1.commit e now).2
      = (Engine.mk (e.log ++ [[⟨k ++ versionstamp (e.log.length + 1) 0, some vval⟩]]),
         Except.ok ()) := by
    rw [hsetk]
    simp [RWState.commit, RWState.fresh, ensureTransaction, Engine.commitTxn,
          Engine.conflicts, Engine.modifiedBetween, KvResult.ok, List.enum,
          List.enumFrom, resolveOp, Engine.latestVersion]
  refine ⟨⟨?_, ?_⟩, ⟨?_, ?_⟩, ?_⟩
  · rw [hcv]
  · rw [show ((RWState.fresh.setVersionstampedValue e k pfx off1).1.commit e now).2.1
        = Engine.mk (e.log ++ [[⟨k, some (pfx ++ versionstamp (e.log.length + 1) 0)⟩]])
        from by rw [hcv]]
    unfold Engine.readAt
    simp only [Engine.latestVersion]
    rw [Engine.stateAt_append_one e _, lookup_applyTxn_set]
  · rw [hck]
  · rw [show ((RWState.fresh.setVersionstampedKey e k off2 vval).1.commit e now).2.1
        = Engine.mk (e.log ++ [[⟨k ++ versionstamp (e.log.length + 1) 0, some vval⟩]])
        from by rw [hck]]
    unfold Engine.readAt
    simp only [Engine.latestVersion]
    rw [Engine.stateAt_append_one e _, lookup_applyTxn_set]
  · simp [versionstamp, beBytes]

theorem versionstamp_appended_at_end_witness :
    (((RWState.fresh.setVersionstampedValue (Engine.mk []) [10] [65] 0).1.commit
        (Engine.mk []) 0).2.2 = Except.ok ()
      ∧ (((RWState.fresh.setVersionstampedValue (Engine.mk []) [10] [65] 0).1.commit
          (Engine.mk []) 0).2.1).readAt ((Engine.mk []).latestVersion + 1) [10]
        = some ([65] ++ versionstamp ((Engine.mk []).latestVersion + 1) 0))
    ∧ (((RWState.fresh.setVersionstampedKey (Engine.mk []) [10] 0 [1]).1.commit
        (Engine.mk []) 0).2.2 = Except.ok ()
      ∧ (((RWState.fresh.setVersionstampedKey (Engine.mk []) [10] 0 [1]).1.commit
          (Engine.mk []) 0).2.1).readAt ((Engine.mk []).latestVersion + 1)
          ([10] ++ versionstamp ((Engine.mk []).latestVersion + 1) 0)
        = some [1])
    ∧ (versionstamp ((Engine.mk []).latestVersion + 1) 0).length = 10 :=
  versionstamp_appended_at_end (Engine.mk []) [10] [65] [1] 0 0 0 (by decide)

/-- C2, counterexample: a read-only transaction that never set a read
version performs each snapshotGet against a freshly begun read snapshot at
the latest engine version, so two snapshotGet calls on the same key on
the same (unchanged) transaction state observe a transaction that
committed between the calls: the first read of key 1 against the empty
engine returns none, and the second read after a concurrent commit of
1 maps-to 7 returns 7. -/
theorem snapshot_isolation_counterexample :
    ROState.fresh.snapshotGet (Engine.mk []) [1] = Except.ok none
    ∧ ROState.fresh.snapshotGet (Engine.mk [[⟨[1], some [7]⟩]]) [1] = Except.ok (some [7])
    ∧ (Engine.mk [[⟨[1], some [7]⟩]]).log = (Engine.mk []).log ++ [[⟨[1], some [7]⟩]] :=
  ⟨rfl, rfl, rfl⟩

/-- C2, amended: snapshot reads of a read-only transaction are stable
across concurrent commits only when the transaction read version has been
pinned with setReadVersion to a positive version no newer than the
engine: then snapshotGet returns the same result before and after any
extension of the committed log.  Without a pinned read version each call
reads at the latest version (see the counterexample). -/
theorem snapshotGet_stable_when_read_version_pinned (ro : ROState) (v : Nat) (e : Engine)
    (ext : List (List Mutation)) (k : Bytes)
    (hrv : ro.read_version = some (v : Int)) (hv : 0 < v) (hlen : v ≤ e.log.length)
    (hg : (ro.cancelled || ro.reset) = false) (hh : ro.hasClientHandle = true) :
    ROState.snapshotGet ro (Engine.mk (e.log ++ ext)) k = ROState.snapshotGet ro e k := by
  have hv0 : ¬((v : Int) = 0) := by omega
  have hst : (Engine.mk (e.log ++ ext)).stateAt v = e.stateAt v :=
    Engine.stateAt_append_of_le e ext v hlen
  simp [ROState.snapshotGet, ROState.snapshotGetFromResult, hg, hh, hrv,
        Engine.beginReadVersion, hv0, Engine.readAt, hst]

theorem snapshotGet_stable_when_read_version_pinned_witness :
    ROState.snapshotGet { ROState.fresh with read_version := some 1 }
        (Engine.mk ((Engine.mk [[⟨[1], some [7]⟩]]).log ++ [[⟨[1], some [8]⟩]])) [1]
      = ROState.snapshotGet { ROState.fresh with read_version := some 1 }
          (Engine.mk [[⟨[1], some [7]⟩]]) [1] :=
  snapshotGet_stable_when_read_version_pinned
    { ROState.fresh with read_version := some 1 } 1 (Engine.mk [[⟨[1], some [7]⟩]])
    [[⟨[1], some [8]⟩]] [1] (by decide) (by decide) (by decide) rfl rfl

/-- C7, counterexample: a store holding exactly one key in the selected
range, queried with limit 1, returns that full matching page yet reports
has_more = true although no further matching key exists; and a read-only
snapshotGetRange over the empty store with limit 0 returns an empty page
with has_more = true although the range is empty. -/
theorem getRange_hasMore_counterexample :
    (RWState.fresh.getRange (Engine.mk [[⟨[1], some [2]⟩]]) ⟨[], true⟩ ⟨[9], false⟩ 1).2
      = Except.ok ⟨[([1], [2])], true⟩
    ∧ rangeContent ((Engine.mk [[⟨[1], some [2]⟩]]).stateAt 1) ⟨[], true⟩ ⟨[9], false⟩
      = [([1], [2])]
    ∧ ROState.fresh.snapshotGetRange (Engine.mk []) ⟨[], true⟩ ⟨[9], false⟩ 0
      = Except.ok ⟨[], true⟩ :=
  ⟨rfl, by decide, rfl⟩

/-- C7, amended: getRange and snapshotGetRange return the ordered matching
pairs, at most limit of them, but has_more is computed from the returned
page alone: the read-write getRange (and its snapshotGetRange, which
delegates) reports has_more iff the page is nonempty and exactly limit
long, and the read-only snapshotGetRange reports has_more iff the page is
exactly limit long; a full final page therefore reports has_more even
when nothing follows it. -/
theorem getRange_hasMore_formula (st : RWState) (ro : ROState) (e : Engine)
    (loSel hiSel : KeySelector) (limit : Nat)
    (h : st.finished = false) (hh : st.hasClientHandle = true)
    (hro : (ro.cancelled || ro.reset) = false) (hroh : ro.hasClientHandle = true) :
    ((st.getRange e loSel hiSel limit).2
       = Except.ok ⟨e.rangeAt ((st.txnHandle.getD (EngineTxn.begin e)).readVersion) loSel hiSel limit,
           !((e.rangeAt ((st.txnHandle.getD (EngineTxn.begin e)).readVersion) loSel hiSel limit).length == 0)
             && (e.rangeAt ((st.txnHandle.getD (EngineTxn.begin e)).readVersion) loSel hiSel limit).length == limit⟩
     ∧ (e.rangeAt ((st.txnHandle.getD (EngineTxn.begin e)).readVersion) loSel hiSel limit).length ≤ limit)
    ∧ (ro.snapshotGetRange e loSel hiSel limit
         = Except.ok ⟨e.rangeAt (e.beginReadVersion (ro.read_version.getD 0)) loSel hiSel limit,
             (e.rangeAt (e.beginReadVersion (ro.read_version.getD 0)) loSel hiSel limit).length == limit⟩
       ∧ (e.rangeAt (e.beginReadVersion (ro.read_version.getD 0)) loSel hiSel limit).length ≤ limit) := by
  refine ⟨⟨?_, ?_⟩, ⟨?_, ?_⟩⟩
  · unfold RWState.getRange ensureTransaction
    cases hth : st.txnHandle <;> simp [h, hh, hth, EngineTxn.begin]
  · simp [Engine.rangeAt, List.length_take_le]
  · simp [ROState.snapshotGetRange, hro, hroh]
  · simp [Engine.rangeAt, List.length_take_le]

theorem getRange_hasMore_formula_witness :
    ((RWState.fresh.getRange (Engine.mk []) ⟨[], true⟩ ⟨[9], false⟩ 2).2
       = Except.ok ⟨(Engine.mk []).rangeAt
             ((RWState.fresh.txnHandle.getD (EngineTxn.begin (Engine.mk []))).readVersion)
             ⟨[], true⟩ ⟨[9], false⟩ 2,
           !(((Engine.mk []).rangeAt
               ((RWState.fresh.txnHandle.getD (EngineTxn.begin (Engine.mk []))).readVersion)
               ⟨[], true⟩ ⟨[9], false⟩ 2).length == 0)
             && ((Engine.mk []).rangeAt
               ((RWState.fresh.txnHandle.getD (EngineTxn.begin (Engine.mk []))).readVersion)
               ⟨[], true⟩ ⟨[9], false⟩ 2).length == 2⟩
     ∧ ((Engine.mk []).rangeAt
           ((RWState.fresh.txnHandle.getD (EngineTxn.begin (Engine.mk []))).readVersion)
           ⟨[], true⟩ ⟨[9], false⟩ 2).length ≤ 2)
    ∧ (ROState.fresh.snapshotGetRange (Engine.mk []) ⟨[], true⟩ ⟨[9], false⟩ 2
         = Except.ok ⟨(Engine.mk []).rangeAt
               ((Engine.mk []).beginReadVersion (ROState.fresh.read_version.getD 0))
               ⟨[], true⟩ ⟨[9], false⟩ 2,
             ((Engine.mk []).rangeAt
               ((Engine.mk []).beginReadVersion (ROState.fresh.read_version.getD 0))
               ⟨[], true⟩ ⟨[9], false⟩ 2).length == 2⟩
       ∧ ((Engine.mk []).rangeAt
             ((Engine.mk []).beginReadVersion (ROState.fresh.read_version.getD 0))
             ⟨[], true⟩ ⟨[9], false⟩ 2).length ≤ 2) :=
  getRange_hasMore_formula RWState.fresh ROState.fresh (Engine.mk [])
    ⟨[], true⟩ ⟨[9], false⟩ 2 rfl rfl rfl rfl

/-- A transaction that stages one write (beginning its engine transaction
at read version 0 against the empty engine) and then declares an explicit
read conflict on key 1 through addReadConflict. -/
def addReadConflictScenario : RWState × Except Status Unit :=
  (RWState.fresh.set (Engine.mk []) [2] [3]).1.addReadConflict [1]

/-- C1: evaluation of the code at the failing input.  addReadConflict
reports success but registers nothing in the engine transaction (its body
is a TODO placeholder), so although key 1 was modified by a transaction
that committed between the read version 0 and the commit, commit()
returns success instead of failing with Conflict. -/
theorem addReadConflict_noop_commit_succeeds :
    addReadConflictScenario.2 = Except.ok ()
    ∧ (addReadConflictScenario.1.txnHandle.getD (EngineTxn.begin (Engine.mk []))).readVersion = 0
    ∧ (addReadConflictScenario.1.txnHandle.getD
        (EngineTxn.begin (Engine.mk []))).readConflictKeys = []
    ∧ (Engine.mk [[⟨[1], some [5]⟩]]).modifiedBetween 0 1 [1] = true
    ∧ (addReadConflictScenario.1.commit (Engine.mk [[⟨[1], some [5]⟩]]) 7).2.2 = Except.ok () :=
  ⟨rfl, rfl, rfl, by decide, rfl⟩

/-- C4: evaluation of the code at the failing input.  Two transactions
committed at engine versions 1 and 2 both report getCommittedVersion() =
1234567, the steady-clock microsecond reading passed at commit time; the
reported value is not the engine-assigned commit version and does not
increase strictly across commits sharing a clock reading. -/
theorem committed_version_is_local_clock :
    ((RWState.fresh.set (Engine.mk []) [1] [2]).1.commit (Engine.mk []) 1234567).2.2
      = Except.ok ()
    ∧ ((RWState.fresh.set (Engine.mk []) [1] [2]).1.commit
        (Engine.mk []) 1234567).1.getCommittedVersion = 1234567
    ∧ (((RWState.fresh.set (Engine.mk []) [1] [2]).1.commit
        (Engine.mk []) 1234567).2.1).latestVersion = 1
    ∧ ((RWState.fresh.set (Engine.mk [[⟨[1], some [2]⟩]]) [3] [4]).1.commit
        (Engine.mk [[⟨[1], some [2]⟩]]) 1234567).1.getCommittedVersion = 1234567
    ∧ (((RWState.fresh.set (Engine.mk [[⟨[1], some [2]⟩]]) [3] [4]).1.commit
        (Engine.mk [[⟨[1], some [2]⟩]]) 1234567).2.1).latestVersion = 2
    ∧ (1234567 : Int) ≠ 1 :=
  ⟨rfl, rfl, rfl, rfl, rfl, by decide⟩

theorem read_result_collapsed_to_none_witness :
    ((RWState.fresh.getFromResult (Engine.mk []) ⟨false, KvErrorCode.other⟩ none).2
      = Except.ok (if (⟨false, KvErrorCode.other⟩ : KvResult).success
            && (none : Option Bytes).isSome then (none : Option Bytes) else none))
    ∧ (ROState.fresh.snapshotGetFromResult ⟨false, KvErrorCode.other⟩ none
      = Except.ok (if (⟨false, KvErrorCode.other⟩ : KvResult).success
            && (none : Option Bytes).isSome then (none : Option Bytes) else none))
    ∧ (RWState.fresh.snapshotGetFromResult ⟨false, KvErrorCode.other⟩ none
      = Except.ok (if (⟨false, KvErrorCode.other⟩ : KvResult).success
            && (none : Option Bytes).isSome then (none : Option Bytes) else none)) :=
  read_result_collapsed_to_none RWState.fresh ROState.fresh (Engine.mk [])
    ⟨false, KvErrorCode.other⟩ none rfl rfl rfl rfl

end HF3FS
